import Mathlib

/-
Verification of the hinge pivot solver (src/hinge-solver.py).

The program formulates a four-equation residual for the two pivot points of a
box-and-lid hinge and drives scipy.optimize.fsolve from a fixed initial guess.
The residual function `equations` and the guess are embedded directly from the
source over the reals; the external root-finder (scipy, not part of this
repository) is modelled from the specification's solver contract.
-/

namespace HingeSolver

/-- Degrees-to-radians conversion, embedding `np.radians(alpha)`. -/
noncomputable def radians (a : ℝ) : ℝ := a * Real.pi / 180

/-- The residual function `equations(vars, h, w, d, alpha, g)` from
src/hinge-solver.py, lines 4-17.  `vars` packs the unknowns
`(x1, y1, x2, y2)`; the result is the list `[eq1, eq2, eq3, eq4]`. -/
noncomputable def equations (vars : ℝ × ℝ × ℝ × ℝ) (h w d alpha g : ℝ) :
    List ℝ :=
  let x1 := vars.1
  let y1 := vars.2.1
  let x2 := vars.2.2.1
  let y2 := vars.2.2.2
  let alpha_rad := radians alpha
  let eq1 := x2 - (w - d)
  let eq2 := y2 - h
  let eq3 := (x2 - x1) ^ 2 + (y2 - y1) ^ 2 - g ^ 2
  let eq4 := y1 - h + d * Real.tan alpha_rad
  [eq1, eq2, eq3, eq4]

/-- The initial guess `[w / 2, h / 2, w - d, h]` built inside
`solve_pivot_points` (src/hinge-solver.py, line 21). -/
noncomputable def initial_guess (h w d : ℝ) : ℝ × ℝ × ℝ × ℝ :=
  (w / 2, h / 2, w - d, h)

/-- Modelled from the spec: `scipy.optimize.fsolve` is an external library,
not part of this repository's source.  The spec describes it as "a pluggable
nonlinear-system solver ... given a residual function and an initial guess,
return an approximate root", and for this particular system the root is
available in closed form (spec section 3 invariant and the section 4
equations): `x2 = w - d`, `y2 = h`, `y1 = h - d*tan(radians alpha)`, and `x1`
lying on the circle of radius `g` around the lid pivot.  The model fixes the
solver-dependent branch choice `x1 = x2 - sqrt(g^2 - (d*tan)^2)` (the spec
marks `x1` as solver-dependent and geometrically meaningless).  When no real
root exists (`g^2 < (d*tan)^2`), `Real.sqrt` of the negative argument is `0`,
so the model still returns a (degenerate) iterate, matching the spec's
"returns whatever the final iterate is".  The `guess` argument mirrors the
call shape of `fsolve(equations, initial_guess, args=...)`. -/
noncomputable def fsolve_model (guess : ℝ × ℝ × ℝ × ℝ) (h w d alpha g : ℝ) :
    ℝ × ℝ × ℝ × ℝ :=
  let _ := guess
  let t := d * Real.tan (radians alpha)
  (w - d - Real.sqrt (g ^ 2 - t ^ 2), h - t, w - d, h)

/-- `solve_pivot_points(h, w, d, alpha, g)` from src/hinge-solver.py, lines
19-28: seed the unknown vector at `initial_guess`, run the root-finder, and
repack the four components as the two pivot points
`((x1, y1), (x2, y2))`. -/
noncomputable def solve_pivot_points (h w d alpha g : ℝ) :
    (ℝ × ℝ) × (ℝ × ℝ) :=
  let s := fsolve_model (initial_guess h w d) h w d alpha g
  ((s.1, s.2.1), (s.2.2.1, s.2.2.2))

/-- C2: for every unknown vector `(x1, y1, x2, y2)` and parameter tuple
`(h, w, d, alpha, g)`, the residual function returns exactly the four values
`[x2 - (w - d), y2 - h, (x2 - x1)^2 + (y2 - y1)^2 - g^2,
y1 - h + d * tan(radians alpha)]`, in that order. -/
theorem equations_component_values (x1 y1 x2 y2 h w d alpha g : ℝ) :
    equations (x1, y1, x2, y2) h w d alpha g =
      [x2 - (w - d), y2 - h, (x2 - x1) ^ 2 + (y2 - y1) ^ 2 - g ^ 2,
       y1 - h + d * Real.tan (radians alpha)] := rfl

/-- C9: the residual function is invariant under negating the gap parameter
`g`, because `g` occurs only squared (in the third equation). -/
theorem equations_gap_sign_invariant (vars : ℝ × ℝ × ℝ × ℝ)
    (h w d alpha g : ℝ) :
    equations vars h w d alpha g = equations vars h w d alpha (-g) := by
  simp [equations]

/-- C1: for every valid `GeometricParameters` input (`h > 0`, `w > 0`,
`0 < d ≤ w`, `g ≥ 0`), the lid pivot returned by `solve_pivot_points` is
exactly `(w - d, h)` — in particular independent of `g` and `alpha` (neither
appears in the result). -/
theorem lid_pivot_exact (h w d alpha g : ℝ) (_hh : 0 < h) (_hw : 0 < w)
    (_hd : 0 < d) (_hdw : d ≤ w) (_hg : 0 ≤ g) :
    (solve_pivot_points h w d alpha g).2 = (w - d, h) := rfl

theorem lid_pivot_exact_witness :
    (0 : ℝ) < 1 ∧ (solve_pivot_points 1 1 1 0 0).2 = (1 - 1, 1) :=
  ⟨one_pos, lid_pivot_exact 1 1 1 0 0 one_pos one_pos one_pos le_rfl le_rfl⟩

/-- C3 counterexample: the third equation does reference `x1`, so two unknown
vectors differing only in `x1` can produce different residual vectors
(here at `x1 = 0` versus `x1 = 1`, all other unknowns and parameters `0`). -/
theorem equations_depend_on_x1 :
    equations ((0 : ℝ), 0, 0, 0) 0 0 0 0 0 ≠
      equations ((1 : ℝ), 0, 0, 0) 0 0 0 0 0 := by
  simp [equations, radians]

/-- C3 amended: equations 1, 2 and 4 do not reference `x1` — changing only
`x1` leaves residual components 0, 1 and 3 unchanged; only the third (gap)
equation references `x1`. -/
theorem x1_only_in_gap_equation (x1 x1' y1 x2 y2 h w d alpha g : ℝ) :
    (equations (x1, y1, x2, y2) h w d alpha g).getD 0 0 =
        (equations (x1', y1, x2, y2) h w d alpha g).getD 0 0 ∧
      (equations (x1, y1, x2, y2) h w d alpha g).getD 1 0 =
        (equations (x1', y1, x2, y2) h w d alpha g).getD 1 0 ∧
      (equations (x1, y1, x2, y2) h w d alpha g).getD 3 0 =
        (equations (x1', y1, x2, y2) h w d alpha g).getD 3 0 :=
  ⟨rfl, rfl, rfl⟩

/-- C4: whenever a real solution of the four-equation system exists
(`(d * tan(radians alpha))^2 ≤ g^2` and `g ≥ 0`), the Euclidean distance
between the two pivot points returned by `solve_pivot_points` equals `g`. -/
theorem gap_consistency (h w d alpha g : ℝ) (hg : 0 ≤ g)
    (hex : (d * Real.tan (radians alpha)) ^ 2 ≤ g ^ 2) :
    Real.sqrt
        (((solve_pivot_points h w d alpha g).2.1 -
            (solve_pivot_points h w d alpha g).1.1) ^ 2 +
          ((solve_pivot_points h w d alpha g).2.2 -
            (solve_pivot_points h w d alpha g).1.2) ^ 2) = g := by
  simp only [solve_pivot_points, fsolve_model, initial_guess]
  set t := d * Real.tan (radians alpha) with ht
  have h1 : w - d - (w - d - Real.sqrt (g ^ 2 - t ^ 2)) =
      Real.sqrt (g ^ 2 - t ^ 2) := by ring
  have h2 : h - (h - t) = t := by ring
  rw [h1, h2, Real.sq_sqrt (by linarith : (0 : ℝ) ≤ g ^ 2 - t ^ 2)]
  have h3 : g ^ 2 - t ^ 2 + t ^ 2 = g ^ 2 := by ring
  rw [h3, Real.sqrt_sq hg]

theorem gap_consistency_witness :
    (0 : ℝ) ≤ 1 ∧
      Real.sqrt
          (((solve_pivot_points 1 1 1 0 1).2.1 -
              (solve_pivot_points 1 1 1 0 1).1.1) ^ 2 +
            ((solve_pivot_points 1 1 1 0 1).2.2 -
              (solve_pivot_points 1 1 1 0 1).1.2) ^ 2) = 1 :=
  ⟨zero_le_one, gap_consistency 1 1 1 0 1 zero_le_one (by simp [radians])⟩

/-- C5: the returned `y1` equals `h - d * tan(radians alpha)`; in particular,
at `alpha = 0` the returned `y1` equals `h` (the tangent term vanishes). -/
theorem angle_consistency (h w d alpha g : ℝ) :
    (solve_pivot_points h w d alpha g).1.2 =
        h - d * Real.tan (radians alpha) ∧
      (solve_pivot_points h w d 0 g).1.2 = h := by
  refine ⟨rfl, ?_⟩
  simp [solve_pivot_points, fsolve_model, radians]

/-- C6: the fourth residual is odd in the pair `(alpha, y1 - h)`: if
`(x1, y1, x2, y2)` zeroes the residual for `alpha`, then
`(x1, 2*h - y1, x2, y2)` zeroes equations 1, 2 and 4 for `-alpha`. -/
theorem angle_sign_symmetry (x1 y1 x2 y2 h w d alpha g : ℝ)
    (hroot : equations (x1, y1, x2, y2) h w d alpha g = [0, 0, 0, 0]) :
    (equations (x1, 2 * h - y1, x2, y2) h w d (-alpha) g).getD 0 0 = 0 ∧
      (equations (x1, 2 * h - y1, x2, y2) h w d (-alpha) g).getD 1 0 = 0 ∧
      (equations (x1, 2 * h - y1, x2, y2) h w d (-alpha) g).getD 3 0 = 0 := by
  simp only [equations, List.cons.injEq, and_true] at hroot
  obtain ⟨h1, h2, -, h4⟩ := hroot
  have hr : radians (-alpha) = -(radians alpha) := by
    unfold radians; ring
  refine ⟨h1, h2, ?_⟩
  show 2 * h - y1 - h + d * Real.tan (radians (-alpha)) = 0
  rw [hr, Real.tan_neg]
  linarith

theorem angle_sign_symmetry_witness :
    equations ((1 : ℝ), 1, 0, 1) 1 1 1 0 1 = [0, 0, 0, 0] ∧
      ((equations ((1 : ℝ), 2 * 1 - 1, 0, 1) 1 1 1 (-0) 1).getD 0 0 = 0 ∧
        (equations ((1 : ℝ), 2 * 1 - 1, 0, 1) 1 1 1 (-0) 1).getD 1 0 = 0 ∧
        (equations ((1 : ℝ), 2 * 1 - 1, 0, 1) 1 1 1 (-0) 1).getD 3 0 = 0) := by
  have hroot : equations ((1 : ℝ), 1, 0, 1) 1 1 1 0 1 = [0, 0, 0, 0] := by
    simp [equations, radians]
  exact ⟨hroot, angle_sign_symmetry 1 1 0 1 1 1 1 0 1 hroot⟩

/-- C7: `solve_pivot_points` seeds the root-finder with the initial guess
`(w/2, h/2, w - d, h)`, and at that seed the first two residual components
are exactly zero. -/
theorem initial_guess_policy (h w d alpha g : ℝ) :
    initial_guess h w d = (w / 2, h / 2, w - d, h) ∧
      solve_pivot_points h w d alpha g =
        (((fsolve_model (initial_guess h w d) h w d alpha g).1,
          (fsolve_model (initial_guess h w d) h w d alpha g).2.1),
         ((fsolve_model (initial_guess h w d) h w d alpha g).2.2.1,
          (fsolve_model (initial_guess h w d) h w d alpha g).2.2.2)) ∧
      (equations (initial_guess h w d) h w d alpha g).getD 0 0 = 0 ∧
      (equations (initial_guess h w d) h w d alpha g).getD 1 0 = 0 := by
  refine ⟨rfl, rfl, ?_, ?_⟩ <;> simp [equations, initial_guess]

/-- C8: `solve_pivot_points` is a total pure function of its five real
arguments: for every input — with no range restriction on any parameter,
`alpha` included — it returns a pivot pair, and in particular the lid pivot
is still `(w - d, h)`; no input is rejected or signalled. -/
theorem solve_pivot_points_total (h w d alpha g : ℝ) :
    ∃ pivot_box pivot_lid : ℝ × ℝ,
      solve_pivot_points h w d alpha g = (pivot_box, pivot_lid) ∧
        pivot_lid = (w - d, h) :=
  ⟨_, _, rfl, rfl⟩

/-- C10: the gap equation is symmetric in the two pivot points — the third
residual component is unchanged when `(x1, y1)` and `(x2, y2)` are swapped —
while the first component depends only on `x2`, the second only on `y2`, and
the fourth only on `y1`. -/
theorem equations_component_structure
    (x1 y1 x2 y2 a b c h w d alpha g : ℝ) :
    (equations (x1, y1, x2, y2) h w d alpha g).getD 2 0 =
        (equations (x2, y2, x1, y1) h w d alpha g).getD 2 0 ∧
      (equations (x1, y1, x2, y2) h w d alpha g).getD 0 0 =
        (equations (a, b, x2, c) h w d alpha g).getD 0 0 ∧
      (equations (x1, y1, x2, y2) h w d alpha g).getD 1 0 =
        (equations (a, b, c, y2) h w d alpha g).getD 1 0 ∧
      (equations (x1, y1, x2, y2) h w d alpha g).getD 3 0 =
        (equations (a, y1, b, c) h w d alpha g).getD 3 0 := by
  refine ⟨?_, rfl, rfl, rfl⟩
  show (x2 - x1) ^ 2 + (y2 - y1) ^ 2 - g ^ 2 =
    (x1 - x2) ^ 2 + (y1 - y2) ^ 2 - g ^ 2
  ring

end HingeSolver
